import Mathlib

/-!
Verification of the libdex concurrency runtime core against its
natural-language specification.

The definitions below are a shallow embedding of the C sources:
`dex-channel.c` (bounded channel of futures), `dex-fiber.c`
(user-space fiber trampoline and 64-bit pointer splitting) and
`dex-timeout.c` (timeout futures). Machine integers are modelled as
`Nat`/`Int` with explicit two-complement conversions where the C code
performs them. Promise and future identities are modelled as natural
numbers; the side effects the channel performs after dropping its lock
(promise resolutions, rejections and future chaining) are recorded as
an explicit effect list in program order.
-/

set_option autoImplicit false

namespace Dex

/-! ### Errors and future status -/

/-- Error codes used by the core (dex-error.h, gio). -/
inductive DexError where
  | channelClosed
  | timedOut
deriving DecidableEq

/-- Status of a future: pending is the sole non-terminal state. -/
inductive FutureStatus where
  | pending
  | resolved
  | rejected
deriving DecidableEq

/-! ### Channel data model (struct _DexChannel, struct _DexChannelItem) -/

/-- G_MAXUINT on the 32-bit guint used by GLib. -/
def G_MAXUINT : Nat := 4294967295

/-- A channel item as allocated by dex_channel_item_new: the future given
to dex_channel_send together with the promise handed back to the sender.
Both are modelled by numeric identities. -/
structure DexChannelItem where
  future : Nat
  send : Nat
deriving DecidableEq

/-- Side effects performed by the channel after releasing its lock, in
program order: dex_promise_resolve_uint, dex_future_chain and
dex_promise_reject. -/
inductive DexEffect where
  | resolveUint (promise : Nat) (value : Nat)
  | chain (future : Nat) (promise : Nat)
  | reject (promise : Nat) (error : DexError)
deriving DecidableEq

/-- The state of struct _DexChannel: the three queues, the capacity and
the two state flags (DEX_CHANNEL_STATE_CAN_SEND, CAN_RECEIVE). -/
structure DexChannel where
  sendq : List DexChannelItem
  recvq : List Nat
  queue : List DexChannelItem
  capacity : Nat
  canSend : Bool
  canReceive : Bool
deriving DecidableEq

/-- dex_channel_new: a capacity of 0 is replaced by G_MAXUINT and both
state flags start set. -/
def dex_channel_new (capacity : Nat) : DexChannel :=
  { sendq := []
    recvq := []
    queue := []
    capacity := if capacity = 0 then G_MAXUINT else capacity
    canSend := true
    canReceive := true }

/-- has_capacity_locked: the sendq is empty and the queue is below the
channel capacity. -/
def has_capacity_locked (c : DexChannel) : Bool :=
  c.sendq.length == 0 && decide (c.queue.length < c.capacity)

/-- dex_channel_one_receive_and_unlock: when both queue and recvq are
non-empty, pop the head item and the head receiver promise, chain the
item future into the promise, and if possible advance the head of the
sendq into the queue, resolving the advanced item send promise with the
new queue length. The returned effect list preserves the order of the
calls made after the unlock. -/
def dex_channel_one_receive_and_unlock (c : DexChannel) :
    DexChannel × List DexEffect :=
  match c.queue, c.recvq with
  | item :: qrest, promise :: rrest =>
    match c.sendq with
    | sitem :: srest =>
      if qrest.length < c.capacity then
        ({ c with queue := qrest ++ [sitem], sendq := srest, recvq := rrest },
         [DexEffect.chain item.future promise,
          DexEffect.resolveUint sitem.send (qrest.length + 1)])
      else
        ({ c with queue := qrest, recvq := rrest },
         [DexEffect.chain item.future promise])
    | [] =>
      ({ c with queue := qrest, recvq := rrest },
       [DexEffect.chain item.future promise])
  | _, _ => (c, [])

/-- Result of dex_channel_send: either a fresh immediately-rejected
future, or the send promise of the newly allocated item. -/
inductive DexSendResult where
  | rejected (error : DexError)
  | promise (send : Nat)
deriving DecidableEq

/-- dex_channel_send: both CAN_SEND and CAN_RECEIVE are required,
otherwise a rejected future with DEX_ERROR_CHANNEL_CLOSED is returned.
With capacity available the item goes to the queue tail, its send
promise is resolved with the post-push queue length and one pairing
step runs; otherwise the item is parked on the sendq. The fresh
promise identity for the item is a parameter. -/
def dex_channel_send (c : DexChannel) (future sendP : Nat) :
    DexChannel × DexSendResult × List DexEffect :=
  if c.canSend && c.canReceive then
    let item : DexChannelItem := { future := future, send := sendP }
    if has_capacity_locked c then
      let c1 : DexChannel := { c with queue := c.queue ++ [item] }
      let r := dex_channel_one_receive_and_unlock c1
      (r.1, DexSendResult.promise sendP,
       DexEffect.resolveUint sendP c1.queue.length :: r.2)
    else
      ({ c with sendq := c.sendq ++ [item] },
       DexSendResult.promise sendP, [])
  else
    (c, DexSendResult.rejected DexError.channelClosed, [])

/-- dex_channel_receive: the returned future is always the fresh
receiver promise recv (a parameter); if the receive side is closed, or
the send side is closed and no items can ever fulfil the request, recv
is rejected, otherwise recv is appended to the recvq and one pairing
step runs. -/
def dex_channel_receive (c : DexChannel) (recv : Nat) :
    DexChannel × List DexEffect :=
  if c.canReceive then
    if !c.canSend && decide (c.queue.length + c.sendq.length ≤ c.recvq.length) then
      (c, [DexEffect.reject recv DexError.channelClosed])
    else
      dex_channel_one_receive_and_unlock { c with recvq := c.recvq ++ [recv] }
  else
    (c, [DexEffect.reject recv DexError.channelClosed])

/-- dex_channel_unset_state_flags: closing the send side truncates the
excess tail of the recvq (the while loop pops the recvq tail while its
length exceeds sendq.length + queue.length); closing the receive side
steals all three queues. The rejected promises are emitted in the order
of the while loops that run after the unlock: stolen recvq first, then
the truncated receivers, then the sendq items. Items stolen from the
queue are freed without any promise effect. -/
def dex_channel_unset_state_flags (c : DexChannel) (unsend unreceive : Bool) :
    DexChannel × List DexEffect :=
  let pending := c.sendq.length + c.queue.length
  let recvq1 := if unsend then c.recvq.take pending else c.recvq
  let trunc : List Nat := if unsend then c.recvq.drop pending else []
  let stolenS : List DexChannelItem := if unreceive then c.sendq else []
  let stolenR : List Nat := if unreceive then recvq1 else []
  let c' : DexChannel :=
    { c with
      canSend := if unsend then false else c.canSend
      canReceive := if unreceive then false else c.canReceive
      queue := if unreceive then [] else c.queue
      sendq := if unreceive then [] else c.sendq
      recvq := if unreceive then [] else recvq1 }
  (c', stolenR.map (fun p => DexEffect.reject p DexError.channelClosed)
       ++ trunc.map (fun p => DexEffect.reject p DexError.channelClosed)
       ++ stolenS.map (fun it => DexEffect.reject it.send DexError.channelClosed))

/-- dex_channel_close_send. -/
def dex_channel_close_send (c : DexChannel) : DexChannel × List DexEffect :=
  dex_channel_unset_state_flags c true false

/-- dex_channel_close_receive. -/
def dex_channel_close_receive (c : DexChannel) : DexChannel × List DexEffect :=
  dex_channel_unset_state_flags c false true

/-! ### Channel execution traces

To state the FIFO pairing guarantee we record, alongside the channel
state, the items accepted by dex_channel_send (in order), the receiver
promises accepted by dex_channel_receive (in order) and the pairings
emitted as dex_future_chain effects (in order). -/

/-- An operation performed on a channel by its callers. -/
inductive ChanOp where
  | send (future sendP : Nat)
  | receive (recv : Nat)
  | closeSend
  | closeReceive
deriving DecidableEq

/-- A channel together with the history of accepted sends, accepted
receives and emitted pairings. -/
structure ChanTrace where
  chan : DexChannel
  sent : List DexChannelItem
  recvd : List Nat
  pairs : List (Nat × Nat)
deriving DecidableEq

/-- The (item future, receiver promise) pairs emitted by an effect list
through dex_future_chain, in order. -/
def chainsOf (effs : List DexEffect) : List (Nat × Nat) :=
  effs.filterMap (fun e =>
    match e with
    | DexEffect.chain f p => some (f, p)
    | _ => none)

/-- dex_channel_send accepts the item (rather than returning a rejected
future) exactly when both state flags are set. -/
def sendAccepted (c : DexChannel) : Bool :=
  c.canSend && c.canReceive

/-- dex_channel_receive accepts the receiver promise (rather than
rejecting it) exactly when the receive side is open and either the send
side is open or enough items remain to fulfil the request. -/
def recvAccepted (c : DexChannel) : Bool :=
  c.canReceive && (c.canSend || decide (c.recvq.length < c.queue.length + c.sendq.length))

/-- One caller operation applied to a trace. -/
def traceStep (t : ChanTrace) (op : ChanOp) : ChanTrace :=
  match op with
  | ChanOp.send f p =>
    let r := dex_channel_send t.chan f p
    { chan := r.1
      sent := t.sent ++ (if sendAccepted t.chan then [{ future := f, send := p }] else [])
      recvd := t.recvd
      pairs := t.pairs ++ chainsOf r.2.2 }
  | ChanOp.receive recv =>
    let r := dex_channel_receive t.chan recv
    { chan := r.1
      sent := t.sent
      recvd := t.recvd ++ (if recvAccepted t.chan then [recv] else [])
      pairs := t.pairs ++ chainsOf r.2 }
  | ChanOp.closeSend =>
    let r := dex_channel_close_send t.chan
    { chan := r.1, sent := t.sent, recvd := t.recvd, pairs := t.pairs ++ chainsOf r.2 }
  | ChanOp.closeReceive =>
    let r := dex_channel_close_receive t.chan
    { chan := r.1, sent := t.sent, recvd := t.recvd, pairs := t.pairs ++ chainsOf r.2 }

/-- Traces reachable from a freshly created channel by caller
operations. -/
inductive ChanReachable : ChanTrace → Prop where
  | init (capacity : Nat) :
      ChanReachable { chan := dex_channel_new capacity, sent := [], recvd := [], pairs := [] }
  | step (t : ChanTrace) (op : ChanOp) :
      ChanReachable t → ChanReachable (traceStep t op)

/-- frontOf a b states that a is an initial segment of b. -/
def frontOf {α : Type} (a b : List α) : Prop :=
  ∃ r, a ++ r = b

/-- A channel from which no further item, receiver or pairing can ever
arise: a side is closed and all three queues are empty. -/
def chanDead (c : DexChannel) : Prop :=
  (c.canSend = false ∨ c.canReceive = false) ∧
    c.queue = [] ∧ c.sendq = [] ∧ c.recvq = []

/-- The futures of a list of channel items, in order. -/
def futuresOf (l : List DexChannelItem) : List Nat :=
  l.map DexChannelItem.future

/-- The invariant tying a reachable channel state to its history:
capacity is positive, queue and recvq are never simultaneously
non-empty, a non-empty sendq certifies a full queue, a closed receive
side has drained every queue, the emitted pairings followed by the
in-flight items form an initial segment of (and, while the receive side
is open, exactly) the accepted sends, and symmetrically for the
receiver side. -/
structure chanInv (t : ChanTrace) : Prop where
  cap_pos : 1 ≤ t.chan.capacity
  not_both : t.chan.queue = [] ∨ t.chan.recvq = []
  sendq_full : t.chan.sendq ≠ [] → t.chan.capacity ≤ t.chan.queue.length
  recv_closed : t.chan.canReceive = false →
    t.chan.queue = [] ∧ t.chan.sendq = [] ∧ t.chan.recvq = []
  sent_front : frontOf (t.pairs.map Prod.fst ++ futuresOf t.chan.queue ++ futuresOf t.chan.sendq)
    (futuresOf t.sent)
  sent_eq : t.chan.canReceive = true →
    t.pairs.map Prod.fst ++ futuresOf t.chan.queue ++ futuresOf t.chan.sendq = futuresOf t.sent
  recvd_front : frontOf (t.pairs.map Prod.snd ++ t.chan.recvq) t.recvd
  recvd_eq : ¬ chanDead t.chan → t.pairs.map Prod.snd ++ t.chan.recvq = t.recvd

/-! ### Fiber model -/

/-- DexFiberState from dex-fiber-private.h. -/
inductive DexFiberState where
  | ready
  | waiting
  | exited
deriving DecidableEq

/-- Which context is currently executing: the scheduler saved context
or the fiber user stack. -/
inductive FiberControl where
  | inScheduler
  | inFiber
deriving DecidableEq

/-- Outcome of the entry function: a value resolves the result future,
an error (or a null return, per the basic scheduler test) rejects it. -/
inductive FiberOutcome where
  | resolved
  | rejected
deriving DecidableEq

/-- Modelled from the spec: the dex-fiber-scheduler implementation that
drives the trampoline exit path is not part of the sources (only
dex-fiber-private.h and test-fiber.c are); the fiber observable state
is its DexFiberState, the status of its result future, which context
holds control, and whether the entry function has returned. -/
structure FiberModel where
  state : DexFiberState
  result : FutureStatus
  control : FiberControl
  entryReturned : Bool
deriving DecidableEq

/-- Modelled from the spec: a freshly created fiber is READY with a
pending result future, control is with the scheduler and the entry
function has not run to completion. -/
def dex_fiber_model_new : FiberModel :=
  { state := DexFiberState.ready
    result := FutureStatus.pending
    control := FiberControl.inScheduler
    entryReturned := false }

/-- Modelled from the spec: the transitions driven by the scheduler
dispatch loop and the trampoline. The scheduler resumes a READY fiber
by swapping into it; a running fiber may await (park WAITING and swap
back); a completion may wake a WAITING fiber; and when the entry
function returns, the trampoline marks the fiber EXITED, completes the
result future with the entry outcome and swaps back to the scheduler
saved context. -/
inductive FiberStep : FiberModel → FiberModel → Prop where
  | resume (m : FiberModel) :
      m.state = DexFiberState.ready → m.control = FiberControl.inScheduler →
      FiberStep m { m with control := FiberControl.inFiber }
  | awaitBlock (m : FiberModel) :
      m.control = FiberControl.inFiber → m.entryReturned = false →
      FiberStep m { m with state := DexFiberState.waiting,
                           control := FiberControl.inScheduler }
  | wake (m : FiberModel) :
      m.state = DexFiberState.waiting →
      FiberStep m { m with state := DexFiberState.ready }
  | trampolineReturn (m : FiberModel) (outcome : FiberOutcome) :
      m.control = FiberControl.inFiber → m.entryReturned = false →
      FiberStep m { m with
        state := DexFiberState.exited
        control := FiberControl.inScheduler
        entryReturned := true
        result := match outcome with
          | FiberOutcome.resolved => FutureStatus.resolved
          | FiberOutcome.rejected => FutureStatus.rejected }

/-- Fiber states reachable from creation. -/
inductive FiberReachable : FiberModel → Prop where
  | start : FiberReachable dex_fiber_model_new
  | step {a b : FiberModel} : FiberReachable a → FiberStep a b → FiberReachable b

/-! ### 64-bit pointer splitting in dex_fiber_new / dex_fiber_start_ -/

/-- Modulus of the 64-bit gsize type. -/
def UINT64_MOD : Nat := 18446744073709551616

/-- Modulus of the 32-bit int type. -/
def INT32_MOD : Nat := 4294967296

/-- Conversion of an unsigned value to the C int type, as the common
two-complement targets perform it: reduce modulo 2^32 and reinterpret
the high bit as the sign. -/
def toCint (n : Nat) : Int :=
  let m := n % INT32_MOD
  if m < 2147483648 then (m : Int) else (m : Int) - (INT32_MOD : Int)

/-- Conversion of a C int value to the 64-bit unsigned gsize type
(sign extension). -/
def intToGsize (i : Int) : Nat :=
  (i % (UINT64_MOD : Int)).toNat

/-- The mask applied to both pointer halves in dex_fiber_new. As in the
source it has nine F digits, that is 36 bits. -/
def FIBER_SPLIT_MASK : Nat := 0xFFFFFFFFF

/-- dex_fiber_new on a 64-bit target: the fiber pointer is split into
the two int-sized makecontext arguments hi and lo. -/
def dex_fiber_new_split (p : Nat) : Int × Int :=
  (toCint ((p >>> 32) &&& FIBER_SPLIT_MASK),
   toCint (p &&& FIBER_SPLIT_MASK))

/-- dex_fiber_start_ on a 64-bit target: the two int arguments are
widened to gsize and recombined as (hi << 32) | lo in 64-bit
arithmetic. -/
def dex_fiber_start_reassemble (hi lo : Int) : Nat :=
  ((intToGsize hi <<< 32) % UINT64_MOD) ||| intToGsize lo

/-! ### Timeout model (dex-timeout.c) -/

/-- The state of a DexTimeout: the status of its future (modelled from
the spec, dex-future.c is not part of the sources) and the optional
attached GSource carrying the ready time (deadline). -/
structure DexTimeout where
  status : FutureStatus
  source : Option Int
deriving DecidableEq

/-- dex_timeout_new_deadline: a pending future with an attached source
whose ready time is the deadline. -/
def dex_timeout_new_deadline (deadline : Int) : DexTimeout :=
  { status := FutureStatus.pending, source := some deadline }

/-- dex_timeout_source_func: completes the future with a
G_IO_ERROR_TIMED_OUT rejection and clears the source. -/
def dex_timeout_source_func (t : DexTimeout) : DexTimeout :=
  { t with status := FutureStatus.rejected, source := none }

/-- dex_timeout_postpone_until: re-arm the source ready time when the
source is still attached, otherwise do nothing. -/
def dex_timeout_postpone_until (t : DexTimeout) (deadline : Int) : DexTimeout :=
  match t.source with
  | some _ => { t with source := some deadline }
  | none => t

/-- Timeout states reachable from dex_timeout_new_deadline through
source firing and postponing. -/
inductive TimeoutReachable : DexTimeout → Prop where
  | new (d : Int) : TimeoutReachable (dex_timeout_new_deadline d)
  | fire {t : DexTimeout} : TimeoutReachable t → t.source ≠ none →
      TimeoutReachable (dex_timeout_source_func t)
  | postpone {t : DexTimeout} (d : Int) : TimeoutReachable t →
      TimeoutReachable (dex_timeout_postpone_until t d)

/-! ### Concrete example states used by witnesses and counterexamples -/

/-- A channel whose receive side was closed: CAN_SEND is still set. -/
def chanC2 : DexChannel := (dex_channel_close_receive (dex_channel_new 1)).1

/-- Backpressure scenario, step 0: a capacity-1 channel. -/
def bpChan0 : DexChannel := dex_channel_new 1

/-- Backpressure scenario, step 1: send future 11, send promise 101. -/
def bpSend1 : DexChannel × DexSendResult × List DexEffect :=
  dex_channel_send bpChan0 11 101

/-- Backpressure scenario, step 2: send future 12, send promise 102. -/
def bpSend2 : DexChannel × DexSendResult × List DexEffect :=
  dex_channel_send bpSend1.1 12 102

/-- Backpressure scenario, step 3: one receive with promise 201. -/
def bpRecv : DexChannel × List DexEffect :=
  dex_channel_receive bpSend2.1 201

/-- A two-step trace: one accepted send paired with one receive. -/
def traceW : ChanTrace :=
  traceStep
    (traceStep { chan := dex_channel_new 2, sent := [], recvd := [], pairs := [] }
      (ChanOp.send 10 100))
    (ChanOp.receive 200)

/-- A fiber whose entry function has returned with a resolved outcome. -/
def fiberW : FiberModel :=
  { state := DexFiberState.exited
    result := FutureStatus.resolved
    control := FiberControl.inScheduler
    entryReturned := true }

/-! ### Helper lemmas -/

theorem frontOf_of_eq {α : Type} {a b : List α} (h : a = b) : frontOf a b :=
  ⟨[], by simp [h]⟩

theorem frontOf_append_left {α : Type} {a b c : List α}
    (h : frontOf (a ++ b) c) : frontOf a c := by
  obtain ⟨r, hr⟩ := h
  exact ⟨b ++ r, by simp [← hr]⟩

theorem frontOf_take {α : Type} {x b c : List α} (n : Nat)
    (h : frontOf (x ++ b) c) : frontOf (x ++ b.take n) c := by
  obtain ⟨r, hr⟩ := h
  refine ⟨b.drop n ++ r, ?_⟩
  have hb : b.take n ++ b.drop n = b := List.take_append_drop n b
  rw [List.append_assoc, ← List.append_assoc (b.take n), hb, ← List.append_assoc]
  exact hr

theorem frontOf_getElem {α : Type} {a b : List α} (h : frontOf a b)
    {k : Nat} (hk : k < a.length) : b[k]? = a[k]? := by
  obtain ⟨r, hr⟩ := h
  rw [← hr]
  exact List.getElem?_append_left hk

theorem chainsOf_nil : chainsOf [] = [] := rfl

theorem chainsOf_cons_resolve (p v : Nat) (rest : List DexEffect) :
    chainsOf (DexEffect.resolveUint p v :: rest) = chainsOf rest := rfl

theorem chainsOf_cons_chain (f p : Nat) (rest : List DexEffect) :
    chainsOf (DexEffect.chain f p :: rest) = (f, p) :: chainsOf rest := rfl

theorem chainsOf_cons_reject (p : Nat) (e : DexError) (rest : List DexEffect) :
    chainsOf (DexEffect.reject p e :: rest) = chainsOf rest := rfl

theorem chainsOf_append (a b : List DexEffect) :
    chainsOf (a ++ b) = chainsOf a ++ chainsOf b := by
  simp [chainsOf, List.filterMap_append]

theorem chainsOf_map_reject (l : List Nat) (e : DexError) :
    chainsOf (l.map (fun p => DexEffect.reject p e)) = [] := by
  induction l with
  | nil => rfl
  | cons h t ih => rw [List.map_cons, chainsOf_cons_reject]; exact ih

theorem chainsOf_drop_map_reject (l : List Nat) (e : DexError) (n : Nat) :
    chainsOf ((l.map (fun p => DexEffect.reject p e)).drop n) = [] := by
  rw [← List.map_drop]
  exact chainsOf_map_reject _ _

theorem chainsOf_map_reject_item (l : List DexChannelItem) (e : DexError) :
    chainsOf (l.map (fun it => DexEffect.reject it.send e)) = [] := by
  induction l with
  | nil => rfl
  | cons h t ih => rw [List.map_cons, chainsOf_cons_reject]; exact ih

/-! ### Case characterizations of the channel operations -/

theorem one_receive_queue_nil (c : DexChannel) (h : c.queue = []) :
    dex_channel_one_receive_and_unlock c = (c, []) := by
  unfold dex_channel_one_receive_and_unlock
  rw [h]

theorem one_receive_recvq_nil (c : DexChannel) (h : c.recvq = []) :
    dex_channel_one_receive_and_unlock c = (c, []) := by
  unfold dex_channel_one_receive_and_unlock
  rw [h]
  rcases hq : c.queue with _ | ⟨i, q⟩ <;> rfl

theorem one_receive_pop_sendq_nil (c : DexChannel) (i : DexChannelItem)
    (q : List DexChannelItem) (p : Nat) (r : List Nat)
    (hq : c.queue = i :: q) (hr : c.recvq = p :: r) (hs : c.sendq = []) :
    dex_channel_one_receive_and_unlock c =
      ({ c with queue := q, recvq := r }, [DexEffect.chain i.future p]) := by
  unfold dex_channel_one_receive_and_unlock
  rw [hq, hr, hs]

theorem one_receive_pop_advance (c : DexChannel) (i s : DexChannelItem)
    (q ss : List DexChannelItem) (p : Nat) (r : List Nat)
    (hq : c.queue = i :: q) (hr : c.recvq = p :: r) (hs : c.sendq = s :: ss)
    (hcap : q.length < c.capacity) :
    dex_channel_one_receive_and_unlock c =
      ({ c with queue := q ++ [s], sendq := ss, recvq := r },
       [DexEffect.chain i.future p,
        DexEffect.resolveUint s.send (q.length + 1)]) := by
  unfold dex_channel_one_receive_and_unlock
  rw [hq, hr, hs]
  simp [hcap]

theorem one_receive_pop_full (c : DexChannel) (i s : DexChannelItem)
    (q ss : List DexChannelItem) (p : Nat) (r : List Nat)
    (hq : c.queue = i :: q) (hr : c.recvq = p :: r) (hs : c.sendq = s :: ss)
    (hcap : ¬ q.length < c.capacity) :
    dex_channel_one_receive_and_unlock c =
      ({ c with queue := q, recvq := r }, [DexEffect.chain i.future p]) := by
  unfold dex_channel_one_receive_and_unlock
  rw [hq, hr, hs]
  simp [hcap]

theorem send_closed (c : DexChannel) (f p : Nat)
    (h : ¬ (c.canSend = true ∧ c.canReceive = true)) :
    dex_channel_send c f p = (c, DexSendResult.rejected DexError.channelClosed, []) := by
  unfold dex_channel_send
  have hb : (c.canSend && c.canReceive) = false := by
    rcases hs : c.canSend <;> rcases hr : c.canReceive <;> simp_all
  rw [hb]
  simp

theorem send_park (c : DexChannel) (f p : Nat)
    (hs : c.canSend = true) (hr : c.canReceive = true)
    (h : has_capacity_locked c = false) :
    dex_channel_send c f p =
      ({ c with sendq := c.sendq ++ [{ future := f, send := p }] },
       DexSendResult.promise p, []) := by
  unfold dex_channel_send
  rw [hs, hr, h]
  simp

theorem send_direct (c : DexChannel) (f p : Nat)
    (hs : c.canSend = true) (hr : c.canReceive = true)
    (h : has_capacity_locked c = true) :
    dex_channel_send c f p =
      ((dex_channel_one_receive_and_unlock
          { c with queue := c.queue ++ [{ future := f, send := p }] }).1,
       DexSendResult.promise p,
       DexEffect.resolveUint p (c.queue.length + 1) ::
         (dex_channel_one_receive_and_unlock
           { c with queue := c.queue ++ [{ future := f, send := p }] }).2) := by
  unfold dex_channel_send
  rw [hs, hr, h]
  simp

theorem receive_closed (c : DexChannel) (recv : Nat) (h : c.canReceive = false) :
    dex_channel_receive c recv = (c, [DexEffect.reject recv DexError.channelClosed]) := by
  unfold dex_channel_receive
  rw [h]
  simp

theorem receive_starved (c : DexChannel) (recv : Nat)
    (hr : c.canReceive = true) (hs : c.canSend = false)
    (h : c.queue.length + c.sendq.length ≤ c.recvq.length) :
    dex_channel_receive c recv = (c, [DexEffect.reject recv DexError.channelClosed]) := by
  unfold dex_channel_receive
  rw [hr, hs]
  simp [h]

theorem receive_accept (c : DexChannel) (recv : Nat)
    (hr : c.canReceive = true)
    (h : c.canSend = true ∨ c.recvq.length < c.queue.length + c.sendq.length) :
    dex_channel_receive c recv =
      dex_channel_one_receive_and_unlock { c with recvq := c.recvq ++ [recv] } := by
  unfold dex_channel_receive
  rw [hr]
  have hb : (!c.canSend && decide (c.queue.length + c.sendq.length ≤ c.recvq.length)) = false := by
    rcases h with h | h
    · rw [h]; rfl
    · have : ¬ c.queue.length + c.sendq.length ≤ c.recvq.length := by omega
      simp [this]
  rw [hb]
  simp

theorem close_send_eq (c : DexChannel) :
    dex_channel_close_send c =
      ({ c with
          canSend := false
          recvq := c.recvq.take (c.sendq.length + c.queue.length) },
       (c.recvq.drop (c.sendq.length + c.queue.length)).map
         (fun p => DexEffect.reject p DexError.channelClosed)) := by
  unfold dex_channel_close_send dex_channel_unset_state_flags
  simp

theorem close_receive_eq (c : DexChannel) :
    dex_channel_close_receive c =
      ({ c with canReceive := false, queue := [], sendq := [], recvq := [] },
       c.recvq.map (fun p => DexEffect.reject p DexError.channelClosed)
         ++ c.sendq.map (fun it => DexEffect.reject it.send DexError.channelClosed)) := by
  unfold dex_channel_close_receive dex_channel_unset_state_flags
  simp

theorem has_capacity_locked_iff (c : DexChannel) :
    has_capacity_locked c = true ↔ c.sendq = [] ∧ c.queue.length < c.capacity := by
  simp [has_capacity_locked, List.length_eq_zero]

theorem postpone_of_source_none (t : DexTimeout) (h : t.source = none) (d : Int) :
    dex_timeout_postpone_until t d = t := by
  unfold dex_timeout_postpone_until
  rw [h]

theorem postpone_of_source_some (t : DexTimeout) (x : Int)
    (h : t.source = some x) (d : Int) :
    dex_timeout_postpone_until t d = { t with source := some d } := by
  unfold dex_timeout_postpone_until
  rw [h]

theorem timeout_pending_iff_source (t : DexTimeout) (h : TimeoutReachable t) :
    t.status = FutureStatus.pending ↔ t.source ≠ none := by
  induction h with
  | new d =>
    exact ⟨fun _ => by simp [dex_timeout_new_deadline], fun _ => rfl⟩
  | fire hr hsrc ih =>
    constructor
    · intro hc
      simp [dex_timeout_source_func] at hc
    · intro hc
      exact absurd rfl hc
  | postpone d hr ih =>
    rename_i t2
    rcases hsrc : t2.source with _ | x
    · rw [postpone_of_source_none t2 hsrc d]
      exact ih
    · rw [postpone_of_source_some t2 x hsrc d]
      exact ⟨fun _ => by simp, fun _ => ih.2 (by simp [hsrc])⟩

/-! ### Preservation of the channel invariant -/

theorem chanInv_step (t : ChanTrace) (op : ChanOp) (h : chanInv t) :
    chanInv (traceStep t op) := by
  obtain ⟨hcap, hboth, hfull, hrc, hsf, hse, hrf, hre⟩ := h
  cases op with
  | send f p =>
    by_cases hacc : t.chan.canSend = true ∧ t.chan.canReceive = true
    · obtain ⟨hcs, hcr⟩ := hacc
      have hnd : ¬ chanDead t.chan := by simp [chanDead, hcs, hcr]
      have hEq := hre hnd
      have hSe := hse hcr
      have hsacc : sendAccepted t.chan = true := by simp [sendAccepted, hcs, hcr]
      by_cases hc : has_capacity_locked t.chan = true
      · obtain ⟨hsq, hql⟩ := (has_capacity_locked_iff t.chan).1 hc
        rcases hrq : t.chan.recvq with _ | ⟨rp, rr⟩
        · -- direct enqueue, no parked receiver: the pairing step does nothing
          have hone : dex_channel_one_receive_and_unlock
              { t.chan with queue := t.chan.queue ++ [⟨f, p⟩] } =
              ({ t.chan with queue := t.chan.queue ++ [⟨f, p⟩] }, []) :=
            one_receive_recvq_nil _ (by simp [hrq])
          have heq : traceStep t (ChanOp.send f p) =
              { chan := { t.chan with queue := t.chan.queue ++ [⟨f, p⟩] }
                sent := t.sent ++ [⟨f, p⟩]
                recvd := t.recvd
                pairs := t.pairs } := by
            simp [traceStep, send_direct t.chan f p hcs hcr hc, hone, hsacc,
              chainsOf_cons_resolve, chainsOf_nil]
          rw [heq]
          have hse2 : t.pairs.map Prod.fst
              ++ futuresOf (t.chan.queue ++ [⟨f, p⟩]) ++ futuresOf t.chan.sendq
              = futuresOf (t.sent ++ [⟨f, p⟩]) := by
            simp only [futuresOf, List.map_append, hsq, List.map_nil] at hSe ⊢
            rw [← hSe]
            simp
          refine ⟨hcap, Or.inr hrq, ?_, ?_, frontOf_of_eq hse2, fun _ => hse2, hrf, fun _ => hEq⟩
          · intro hcon; simp only [hsq] at hcon; exact absurd rfl hcon
          · intro hcon; simp only [hcr] at hcon; cases hcon
        · -- direct enqueue pairing with the parked head receiver
          have hq0 : t.chan.queue = [] := by
            rcases hboth with hh | hh
            · exact hh
            · rw [hrq] at hh; cases hh
          have hone : dex_channel_one_receive_and_unlock
              { t.chan with queue := t.chan.queue ++ [⟨f, p⟩] } =
              ({ t.chan with queue := [], recvq := rr },
               [DexEffect.chain f rp]) := by
            have := one_receive_pop_sendq_nil
              { t.chan with queue := t.chan.queue ++ [⟨f, p⟩] }
              ⟨f, p⟩ [] rp rr (by simp [hq0]) (by simp [hrq]) (by simp [hsq])
            simpa using this
          have heq : traceStep t (ChanOp.send f p) =
              { chan := { t.chan with queue := [], recvq := rr }
                sent := t.sent ++ [⟨f, p⟩]
                recvd := t.recvd
                pairs := t.pairs ++ [(f, rp)] } := by
            simp [traceStep, send_direct t.chan f p hcs hcr hc, hone, hsacc,
              chainsOf_cons_resolve, chainsOf_cons_chain, chainsOf_nil]
          rw [heq]
          have hfsteq : t.pairs.map Prod.fst = futuresOf t.sent := by
            simpa [futuresOf, hq0, hsq] using hSe
          have hse2 : (t.pairs ++ [(f, rp)]).map Prod.fst
              ++ futuresOf ([] : List DexChannelItem) ++ futuresOf t.chan.sendq
              = futuresOf (t.sent ++ [⟨f, p⟩]) := by
            simp [futuresOf, hsq, List.map_append, hfsteq]
          have hrdeq : (t.pairs ++ [(f, rp)]).map Prod.snd ++ rr = t.recvd := by
            rw [hrq] at hEq
            simp only [List.map_append, List.map_cons, List.map_nil]
            rw [List.append_assoc]
            simpa using hEq
          refine ⟨hcap, Or.inl rfl, ?_, ?_, frontOf_of_eq hse2, fun _ => hse2,
            frontOf_of_eq hrdeq, fun _ => hrdeq⟩
          · intro hcon; simp only [hsq] at hcon; exact absurd rfl hcon
          · intro hcon; simp only [hcr] at hcon; cases hcon
      · -- no capacity: the item is parked on the sendq
        have hcf : has_capacity_locked t.chan = false := by
          cases hb : has_capacity_locked t.chan
          · rfl
          · exact absurd hb hc
        have hncap : ¬ (t.chan.sendq = [] ∧ t.chan.queue.length < t.chan.capacity) := by
          have h2 := has_capacity_locked_iff t.chan
          rw [hcf] at h2
          simpa using h2
        have heq : traceStep t (ChanOp.send f p) =
            { chan := { t.chan with sendq := t.chan.sendq ++ [⟨f, p⟩] }
              sent := t.sent ++ [⟨f, p⟩]
              recvd := t.recvd
              pairs := t.pairs } := by
          simp [traceStep, send_park t.chan f p hcs hcr hcf, hsacc, chainsOf_nil]
        rw [heq]
        have hse2 : t.pairs.map Prod.fst ++ futuresOf t.chan.queue
            ++ futuresOf (t.chan.sendq ++ [⟨f, p⟩])
            = futuresOf (t.sent ++ [⟨f, p⟩]) := by
          simp only [futuresOf, List.map_append] at hSe ⊢
          rw [← hSe]
          simp
        refine ⟨hcap, hboth, ?_, ?_, frontOf_of_eq hse2, fun _ => hse2, hrf, fun _ => hEq⟩
        · intro _
          show t.chan.capacity ≤ t.chan.queue.length
          by_cases hsq0 : t.chan.sendq = []
          · have : ¬ t.chan.queue.length < t.chan.capacity := fun hlt => hncap ⟨hsq0, hlt⟩
            omega
          · exact hfull hsq0
        · intro hcon; simp only [hcr] at hcon; cases hcon
    · -- the send side or the receive side is closed: the send is rejected
      have hsacc : sendAccepted t.chan = false := by
        rcases h1 : t.chan.canSend <;> rcases h2 : t.chan.canReceive <;>
          simp_all [sendAccepted]
      have heq : traceStep t (ChanOp.send f p) =
          { chan := t.chan, sent := t.sent, recvd := t.recvd, pairs := t.pairs } := by
        simp [traceStep, send_closed t.chan f p hacc, hsacc, chainsOf_nil]
      rw [heq]
      exact ⟨hcap, hboth, hfull, hrc, hsf, hse, hrf, hre⟩
  | receive recv =>
    by_cases hcr : t.chan.canReceive = true
    · by_cases hok : t.chan.canSend = true ∨
          t.chan.recvq.length < t.chan.queue.length + t.chan.sendq.length
      · -- the receiver is accepted
        have hracc : recvAccepted t.chan = true := by
          rcases hok with hh | hh
          · simp [recvAccepted, hcr, hh]
          · simp [recvAccepted, hcr, hh]
        have hnd : ¬ chanDead t.chan := by
          intro hd
          obtain ⟨hflag, hdq, hds, hdr⟩ := hd
          rcases hflag with hf | hf
          · rcases hok with hh | hh
            · rw [hh] at hf; cases hf
            · rw [hdq, hds, hdr] at hh; simp at hh
          · rw [hcr] at hf; cases hf
        have hEq := hre hnd
        have hSe := hse hcr
        have hrecv := receive_accept t.chan recv hcr hok
        rcases hq : t.chan.queue with _ | ⟨i, qr⟩
        · -- empty queue: the receiver parks
          have hone := one_receive_queue_nil
            { t.chan with recvq := t.chan.recvq ++ [recv] } (by simp [hq])
          have heq : traceStep t (ChanOp.receive recv) =
              { chan := { t.chan with recvq := t.chan.recvq ++ [recv] }
                sent := t.sent
                recvd := t.recvd ++ [recv]
                pairs := t.pairs } := by
            simp [traceStep, hrecv, hone, hracc, chainsOf_nil]
          rw [heq]
          have hrdeq : t.pairs.map Prod.snd ++ (t.chan.recvq ++ [recv])
              = t.recvd ++ [recv] := by
            rw [← List.append_assoc, hEq]
          refine ⟨hcap, Or.inl hq, hfull, ?_, hsf, hse, frontOf_of_eq hrdeq, fun _ => hrdeq⟩
          intro hcon; simp only [hcr] at hcon; cases hcon
        · -- non-empty queue: the fresh receiver pairs with the head item
          have hr0 : t.chan.recvq = [] := by
            rcases hboth with hh | hh
            · rw [hq] at hh; cases hh
            · exact hh
          rcases hs : t.chan.sendq with _ | ⟨s, ss⟩
          · have hone : dex_channel_one_receive_and_unlock
                { t.chan with recvq := t.chan.recvq ++ [recv] } =
                ({ t.chan with queue := qr, recvq := [] },
                 [DexEffect.chain i.future recv]) := by
              have := one_receive_pop_sendq_nil
                { t.chan with recvq := t.chan.recvq ++ [recv] }
                i qr recv [] (by simp [hq]) (by simp [hr0]) (by simp [hs])
              simpa using this
            have heq : traceStep t (ChanOp.receive recv) =
                { chan := { t.chan with queue := qr, recvq := [] }
                  sent := t.sent
                  recvd := t.recvd ++ [recv]
                  pairs := t.pairs ++ [(i.future, recv)] } := by
              simp [traceStep, hrecv, hone, hracc, chainsOf_cons_chain, chainsOf_nil]
            rw [heq]
            have hse2 : (t.pairs ++ [(i.future, recv)]).map Prod.fst
                ++ futuresOf qr ++ futuresOf t.chan.sendq = futuresOf t.sent := by
              rw [hq, hs] at hSe
              simp only [hs, futuresOf, List.map_append, List.map_cons,
                List.map_nil] at hSe ⊢
              rw [List.append_assoc]
              simpa using hSe
            have hrdeq : (t.pairs ++ [(i.future, recv)]).map Prod.snd ++ ([] : List Nat)
                = t.recvd ++ [recv] := by
              rw [hr0] at hEq
              simp only [List.append_nil] at hEq
              simp [hEq]
            refine ⟨hcap, Or.inr rfl, ?_, ?_, frontOf_of_eq hse2, fun _ => hse2,
              frontOf_of_eq hrdeq, fun _ => hrdeq⟩
            · intro hcon; simp only [hs] at hcon; exact absurd rfl hcon
            · intro hcon; simp only [hcr] at hcon; cases hcon
          · by_cases hcap2 : qr.length < t.chan.capacity
            · -- the parked head sender advances into the queue
              have hone : dex_channel_one_receive_and_unlock
                  { t.chan with recvq := t.chan.recvq ++ [recv] } =
                  ({ t.chan with queue := qr ++ [s], sendq := ss, recvq := [] },
                   [DexEffect.chain i.future recv,
                    DexEffect.resolveUint s.send (qr.length + 1)]) := by
                have := one_receive_pop_advance
                  { t.chan with recvq := t.chan.recvq ++ [recv] }
                  i s qr ss recv [] (by simp [hq]) (by simp [hr0]) (by simp [hs])
                  (by simpa using hcap2)
                simpa using this
              have heq : traceStep t (ChanOp.receive recv) =
                  { chan := { t.chan with queue := qr ++ [s], sendq := ss, recvq := [] }
                    sent := t.sent
                    recvd := t.recvd ++ [recv]
                    pairs := t.pairs ++ [(i.future, recv)] } := by
                simp [traceStep, hrecv, hone, hracc, chainsOf_cons_chain,
                  chainsOf_cons_resolve, chainsOf_nil]
              rw [heq]
              have hse2 : (t.pairs ++ [(i.future, recv)]).map Prod.fst
                  ++ futuresOf (qr ++ [s]) ++ futuresOf ss = futuresOf t.sent := by
                rw [hq, hs] at hSe
                simp only [futuresOf, List.map_append, List.map_cons, List.map_nil] at hSe ⊢
                simp only [List.append_assoc] at hSe ⊢
                simpa using hSe
              have hrdeq : (t.pairs ++ [(i.future, recv)]).map Prod.snd ++ ([] : List Nat)
                  = t.recvd ++ [recv] := by
                rw [hr0] at hEq
                simp only [List.append_nil] at hEq
                simp [hEq]
              refine ⟨hcap, Or.inr rfl, ?_, ?_, frontOf_of_eq hse2, fun _ => hse2,
                frontOf_of_eq hrdeq, fun _ => hrdeq⟩
              · intro _
                show t.chan.capacity ≤ (qr ++ [s]).length
                have h3 := hfull (by simp [hs])
                rw [hq] at h3
                simp only [List.length_append, List.length_cons] at h3 ⊢
                omega
              · intro hcon; simp only [hcr] at hcon; cases hcon
            · -- the queue stays full: no advance
              have hone : dex_channel_one_receive_and_unlock
                  { t.chan with recvq := t.chan.recvq ++ [recv] } =
                  ({ t.chan with queue := qr, recvq := [] },
                   [DexEffect.chain i.future recv]) := by
                have := one_receive_pop_full
                  { t.chan with recvq := t.chan.recvq ++ [recv] }
                  i s qr ss recv [] (by simp [hq]) (by simp [hr0]) (by simp [hs])
                  (by simpa using hcap2)
                simpa using this
              have heq : traceStep t (ChanOp.receive recv) =
                  { chan := { t.chan with queue := qr, recvq := [] }
                    sent := t.sent
                    recvd := t.recvd ++ [recv]
                    pairs := t.pairs ++ [(i.future, recv)] } := by
                simp [traceStep, hrecv, hone, hracc, chainsOf_cons_chain, chainsOf_nil]
              rw [heq]
              have hse2 : (t.pairs ++ [(i.future, recv)]).map Prod.fst
                  ++ futuresOf qr ++ futuresOf t.chan.sendq = futuresOf t.sent := by
                rw [hq] at hSe
                simp only [futuresOf, List.map_append, List.map_cons, List.map_nil] at hSe ⊢
                simp only [List.append_assoc] at hSe ⊢
                simpa using hSe
              have hrdeq : (t.pairs ++ [(i.future, recv)]).map Prod.snd ++ ([] : List Nat)
                  = t.recvd ++ [recv] := by
                rw [hr0] at hEq
                simp only [List.append_nil] at hEq
                simp [hEq]
              refine ⟨hcap, Or.inr rfl, ?_, ?_, frontOf_of_eq hse2, fun _ => hse2,
                frontOf_of_eq hrdeq, fun _ => hrdeq⟩
              · intro _
                show t.chan.capacity ≤ qr.length
                omega
              · intro hcon; simp only [hcr] at hcon; cases hcon
      · -- starved: the receive side is open but nothing can ever arrive
        have hcsf : t.chan.canSend = false := by
          cases hb : t.chan.canSend
          · rfl
          · exact absurd (Or.inl hb) hok
        have hle : t.chan.queue.length + t.chan.sendq.length ≤ t.chan.recvq.length := by
          by_contra hlt
          exact hok (Or.inr (by omega))
        have hnlt : ¬ t.chan.recvq.length < t.chan.queue.length + t.chan.sendq.length :=
          Nat.not_lt.mpr hle
        have hracc : recvAccepted t.chan = false := by
          simp [recvAccepted, hcsf, hnlt]
        have heq : traceStep t (ChanOp.receive recv) =
            { chan := t.chan, sent := t.sent, recvd := t.recvd, pairs := t.pairs } := by
          simp [traceStep, receive_starved t.chan recv hcr hcsf hle, hracc,
            chainsOf_cons_reject, chainsOf_nil]
        rw [heq]
        exact ⟨hcap, hboth, hfull, hrc, hsf, hse, hrf, hre⟩
    · -- the receive side is closed
      have hcrf : t.chan.canReceive = false := by
        cases hb : t.chan.canReceive
        · rfl
        · exact absurd hb hcr
      have hracc : recvAccepted t.chan = false := by
        simp [recvAccepted, hcrf]
      have heq : traceStep t (ChanOp.receive recv) =
          { chan := t.chan, sent := t.sent, recvd := t.recvd, pairs := t.pairs } := by
        simp [traceStep, receive_closed t.chan recv hcrf, hracc,
          chainsOf_cons_reject, chainsOf_nil]
      rw [heq]
      exact ⟨hcap, hboth, hfull, hrc, hsf, hse, hrf, hre⟩
  | closeSend =>
    have heq : traceStep t ChanOp.closeSend =
        { chan := { t.chan with
            canSend := false
            recvq := t.chan.recvq.take (t.chan.sendq.length + t.chan.queue.length) }
          sent := t.sent
          recvd := t.recvd
          pairs := t.pairs } := by
      simp [traceStep, close_send_eq t.chan, chainsOf_map_reject,
        chainsOf_drop_map_reject]
    rw [heq]
    refine ⟨hcap, ?_, hfull, ?_, hsf, hse,
      frontOf_take (t.chan.sendq.length + t.chan.queue.length) hrf, ?_⟩
    · rcases hboth with hh | hh
      · exact Or.inl hh
      · exact Or.inr (by rw [hh]; simp)
    · intro hcon
      obtain ⟨hdq, hds, hdr⟩ := hrc hcon
      exact ⟨hdq, hds, by rw [hdr]; simp⟩
    · intro hnd2
      by_cases hlen : t.chan.recvq.length ≤ t.chan.sendq.length + t.chan.queue.length
      · rw [List.take_of_length_le hlen]
        apply hre
        intro hd
        obtain ⟨_, hdq, hds, hdr⟩ := hd
        exact hnd2 ⟨Or.inl rfl, hdq, hds, by rw [hdr]; simp⟩
      · exfalso
        apply hnd2
        have hlt : t.chan.sendq.length + t.chan.queue.length < t.chan.recvq.length := by
          omega
        have hq0 : t.chan.queue = [] := by
          rcases hboth with hh | hh
          · exact hh
          · rw [hh] at hlt; simp at hlt
        have hs0 : t.chan.sendq = [] := by
          rcases hsb : t.chan.sendq with _ | ⟨x, xs⟩
          · rfl
          · exfalso
            have h3 := hfull (by simp [hsb])
            rw [hq0] at h3
            simp at h3
            omega
        refine ⟨Or.inl rfl, hq0, hs0, ?_⟩
        rw [hq0, hs0]
        simp
  | closeReceive =>
    have heq : traceStep t ChanOp.closeReceive =
        { chan := { t.chan with canReceive := false, queue := [], sendq := [], recvq := [] }
          sent := t.sent
          recvd := t.recvd
          pairs := t.pairs } := by
      simp [traceStep, close_receive_eq t.chan, chainsOf_append,
        chainsOf_map_reject, chainsOf_map_reject_item]
    rw [heq]
    refine ⟨hcap, Or.inl rfl, ?_, fun _ => ⟨rfl, rfl, rfl⟩, ?_, ?_, ?_, ?_⟩
    · intro hcon; exact absurd rfl hcon
    · simpa [futuresOf] using frontOf_append_left (frontOf_append_left hsf)
    · intro hcon; simp at hcon
    · simpa using frontOf_append_left hrf
    · intro hnd2
      exact absurd ⟨Or.inr rfl, rfl, rfl, rfl⟩ hnd2

/-- Every reachable trace satisfies the channel invariant. -/
theorem chanInv_reachable (t : ChanTrace) (h : ChanReachable t) : chanInv t := by
  induction h with
  | init capacity =>
    refine ⟨?_, Or.inl rfl, ?_, ?_, ⟨[], by simp [futuresOf, dex_channel_new]⟩, ?_,
      ⟨[], by simp [dex_channel_new]⟩, ?_⟩
    · unfold dex_channel_new
      dsimp only
      split
      · decide
      · omega
    · intro hcon; exact absurd rfl hcon
    · intro hcon; simp [dex_channel_new] at hcon
    · intro _; simp [futuresOf, dex_channel_new]
    · intro _; simp [dex_channel_new]
  | step t op _ ih => exact chanInv_step t op ih

/-! ### Claims -/

/-- Claim C1: after any channel operation, queue and recvq are never
both non-empty, and the k-th emitted pairing chains the k-th accepted
sent item into the k-th accepted receiver promise (strict FIFO on both
sides). -/
theorem channel_pairing_fifo (t : ChanTrace) (h : ChanReachable t) :
    (t.chan.queue = [] ∨ t.chan.recvq = []) ∧
    ∀ k, k < t.pairs.length →
      (futuresOf t.sent)[k]? = (t.pairs.map Prod.fst)[k]? ∧
      t.recvd[k]? = (t.pairs.map Prod.snd)[k]? := by
  have inv := chanInv_reachable t h
  refine ⟨inv.not_both, ?_⟩
  intro k hk
  have h1 : frontOf (t.pairs.map Prod.fst) (futuresOf t.sent) :=
    frontOf_append_left (frontOf_append_left inv.sent_front)
  have h2 : frontOf (t.pairs.map Prod.snd) t.recvd :=
    frontOf_append_left inv.recvd_front
  constructor
  · exact frontOf_getElem h1 (by simpa using hk)
  · exact frontOf_getElem h2 (by simpa using hk)

/-- Witness for C1 on a concrete two-step trace with one pairing. -/
theorem channel_pairing_fifo_witness :
    (traceW.chan.queue = [] ∨ traceW.chan.recvq = []) ∧
    ∀ k, k < traceW.pairs.length →
      (futuresOf traceW.sent)[k]? = (traceW.pairs.map Prod.fst)[k]? ∧
      traceW.recvd[k]? = (traceW.pairs.map Prod.snd)[k]? :=
  channel_pairing_fifo traceW
    (ChanReachable.step _ (ChanOp.receive 200)
      (ChanReachable.step _ (ChanOp.send 10 100) (ChanReachable.init 2)))

/-- Claim C2, counterexample: dex_channel_send does not reject only when
CAN_SEND is clear; after dex_channel_close_receive the CAN_SEND flag is
still set and the send is nevertheless rejected with CHANNEL_CLOSED,
because the code requires both flags. -/
theorem channel_send_rejects_despite_can_send :
    chanC2.canSend = true ∧
    (dex_channel_send chanC2 7 8).2.1
      = DexSendResult.rejected DexError.channelClosed := by
  constructor <;> rfl

/-- Claim C2 as amended: dex_channel_send returns an immediately-rejected
future with CHANNEL_CLOSED exactly when CAN_SEND or CAN_RECEIVE is
clear; when both flags are set it returns the send promise of the newly
allocated item. -/
theorem channel_send_reject_iff_flags (c : DexChannel) (f p : Nat) :
    ((dex_channel_send c f p).2.1 = DexSendResult.rejected DexError.channelClosed ↔
      ¬ (c.canSend = true ∧ c.canReceive = true)) ∧
    (c.canSend = true → c.canReceive = true →
      (dex_channel_send c f p).2.1 = DexSendResult.promise p) := by
  by_cases hacc : c.canSend = true ∧ c.canReceive = true
  · obtain ⟨hcs, hcr⟩ := hacc
    have hres : (dex_channel_send c f p).2.1 = DexSendResult.promise p := by
      by_cases hc : has_capacity_locked c = true
      · rw [send_direct c f p hcs hcr hc]
      · have hcf : has_capacity_locked c = false := by
          cases hb : has_capacity_locked c
          · rfl
          · exact absurd hb hc
        rw [send_park c f p hcs hcr hcf]
    constructor
    · simp [hres, hcs, hcr]
    · intro _ _; exact hres
  · constructor
    · simp [send_closed c f p hacc, hacc]
    · intro hcs hcr; exact absurd ⟨hcs, hcr⟩ hacc

/-- Witness for the amended C2 on a fresh open channel. -/
theorem channel_send_reject_iff_flags_witness :
    (dex_channel_send (dex_channel_new 1) 7 8).2.1 = DexSendResult.promise 8 :=
  (channel_send_reject_iff_flags (dex_channel_new 1) 7 8).2 rfl rfl

/-- Claim C3: a send on an open channel with an empty sendq and a queue
below capacity pushes the item onto the queue tail, resolves the send
promise with the post-push queue length (the first effect emitted) and
runs one pairing step. -/
theorem channel_send_direct_enqueue (c : DexChannel) (f p : Nat)
    (hcs : c.canSend = true) (hcr : c.canReceive = true)
    (hsq : c.sendq = []) (hcap : c.queue.length < c.capacity) :
    dex_channel_send c f p =
      ((dex_channel_one_receive_and_unlock
          { c with queue := c.queue ++ [{ future := f, send := p }] }).1,
       DexSendResult.promise p,
       DexEffect.resolveUint p (c.queue.length + 1) ::
         (dex_channel_one_receive_and_unlock
            { c with queue := c.queue ++ [{ future := f, send := p }] }).2) := by
  have hc : has_capacity_locked c = true :=
    (has_capacity_locked_iff c).2 ⟨hsq, hcap⟩
  exact send_direct c f p hcs hcr hc

/-- Witness for C3 on a fresh capacity-1 channel. -/
theorem channel_send_direct_enqueue_witness :
    dex_channel_send (dex_channel_new 1) 7 8 =
      ((dex_channel_one_receive_and_unlock
          { dex_channel_new 1 with queue := [{ future := 7, send := 8 }] }).1,
       DexSendResult.promise 8,
       DexEffect.resolveUint 8 1 ::
         (dex_channel_one_receive_and_unlock
            { dex_channel_new 1 with queue := [{ future := 7, send := 8 }] }).2) :=
  channel_send_direct_enqueue (dex_channel_new 1) 7 8 rfl rfl rfl (by decide)

/-- Claim C4: during a pairing step with both heads popped, a non-empty
sendq whose head fits in the queue is advanced to the queue tail and its
send promise is resolved with the new queue length; concretely, on a
capacity-1 channel, the first send resolves at once with 1, the second
parks pending, and one receive resolves the parked send promise with
1. -/
theorem channel_pairing_advances_sendq :
    (∀ (c : DexChannel) (i s : DexChannelItem) (q ss : List DexChannelItem)
        (p : Nat) (r : List Nat),
      c.queue = i :: q → c.recvq = p :: r → c.sendq = s :: ss →
      q.length < c.capacity →
      dex_channel_one_receive_and_unlock c =
        ({ c with queue := q ++ [s], sendq := ss, recvq := r },
         [DexEffect.chain i.future p,
          DexEffect.resolveUint s.send (q.length + 1)])) ∧
    (bpSend1.2.2 = [DexEffect.resolveUint 101 1] ∧
     bpSend2.2.2 = [] ∧
     bpRecv.2 = [DexEffect.chain 11 201, DexEffect.resolveUint 102 1]) :=
  ⟨one_receive_pop_advance, by decide⟩

/-- Witness for the universally quantified part of C4. -/
theorem channel_pairing_advances_sendq_witness :
    dex_channel_one_receive_and_unlock
        { sendq := [{ future := 12, send := 102 }], recvq := [201]
          queue := [{ future := 11, send := 101 }], capacity := 1
          canSend := true, canReceive := true } =
      ({ sendq := [], recvq := [], queue := [{ future := 12, send := 102 }]
         capacity := 1, canSend := true, canReceive := true },
       [DexEffect.chain 11 201, DexEffect.resolveUint 102 1]) :=
  channel_pairing_advances_sendq.1 _
    { future := 11, send := 101 } { future := 12, send := 102 }
    [] [] 201 [] rfl rfl rfl (by decide)

/-- Claim C5: dex_channel_receive rejects the fresh promise when the
receive side is closed, and also when the send side is closed and
queue.length + sendq.length does not exceed recvq.length; in all other
cases it appends the fresh promise to the recvq and runs one pairing
step (the promise itself is always the future handed back). -/
theorem channel_receive_contract (c : DexChannel) (recv : Nat) :
    (c.canReceive = false →
      dex_channel_receive c recv
        = (c, [DexEffect.reject recv DexError.channelClosed])) ∧
    (c.canReceive = true → c.canSend = false →
      c.queue.length + c.sendq.length ≤ c.recvq.length →
      dex_channel_receive c recv
        = (c, [DexEffect.reject recv DexError.channelClosed])) ∧
    (c.canReceive = true →
      (c.canSend = true ∨ c.recvq.length < c.queue.length + c.sendq.length) →
      dex_channel_receive c recv =
        dex_channel_one_receive_and_unlock { c with recvq := c.recvq ++ [recv] }) :=
  ⟨receive_closed c recv, receive_starved c recv, receive_accept c recv⟩

/-- Witness for C5 on a fresh open channel. -/
theorem channel_receive_contract_witness :
    dex_channel_receive (dex_channel_new 1) 201 =
      dex_channel_one_receive_and_unlock
        { dex_channel_new 1 with recvq := (dex_channel_new 1).recvq ++ [201] } :=
  (channel_receive_contract (dex_channel_new 1) 201).2.2 rfl (Or.inl rfl)

/-- Claim C6: dex_channel_close_send clears CAN_SEND, keeps the first
sendq.length + queue.length receivers and rejects exactly the excess
tail of the recvq with CHANNEL_CLOSED (recvq.length minus the pending
count, truncated at zero), leaving queue, sendq and the receive flag
untouched. -/
theorem channel_close_send_rejects_excess (c : DexChannel) :
    dex_channel_close_send c =
      ({ c with
          canSend := false
          recvq := c.recvq.take (c.sendq.length + c.queue.length) },
       (c.recvq.drop (c.sendq.length + c.queue.length)).map
         (fun p => DexEffect.reject p DexError.channelClosed)) ∧
    (dex_channel_close_send c).2.length
      = c.recvq.length - (c.sendq.length + c.queue.length) := by
  refine ⟨close_send_eq c, ?_⟩
  rw [close_send_eq c]
  simp

/-- Claim C7: the result future of a fiber terminates exactly when its
entry function has returned, at which point the trampoline has marked
the fiber EXITED and control is back in the scheduler saved context. -/
theorem fiber_result_terminates_iff_entry_returned (m : FiberModel)
    (h : FiberReachable m) :
    (m.result ≠ FutureStatus.pending ↔ m.entryReturned = true) ∧
    (m.entryReturned = true →
      m.state = DexFiberState.exited ∧ m.control = FiberControl.inScheduler) := by
  induction h with
  | start =>
    exact ⟨⟨fun hc => absurd rfl hc, fun hc => by cases hc⟩, fun hc => by cases hc⟩
  | step hr hs ih =>
    cases hs with
    | resume h1 h2 =>
      rename_i m
      have hnr : m.entryReturned = false := by
        cases hb : m.entryReturned
        · rfl
        · have hst := (ih.2 hb).1
          rw [h1] at hst
          cases hst
      have hp : m.result = FutureStatus.pending := by
        by_contra hne
        have := ih.1.1 hne
        rw [hnr] at this
        cases this
      exact ⟨⟨fun hne => absurd hp hne, fun hc => by rw [hnr] at hc; cases hc⟩,
        fun hc => by rw [hnr] at hc; cases hc⟩
    | awaitBlock h1 h2 =>
      rename_i m
      have hp : m.result = FutureStatus.pending := by
        by_contra hne
        have := ih.1.1 hne
        rw [h2] at this
        cases this
      exact ⟨⟨fun hne => absurd hp hne, fun hc => by rw [h2] at hc; cases hc⟩,
        fun hc => by rw [h2] at hc; cases hc⟩
    | wake h1 =>
      rename_i m
      have hnr : m.entryReturned = false := by
        cases hb : m.entryReturned
        · rfl
        · have hst := (ih.2 hb).1
          rw [h1] at hst
          cases hst
      have hp : m.result = FutureStatus.pending := by
        by_contra hne
        have := ih.1.1 hne
        rw [hnr] at this
        cases this
      exact ⟨⟨fun hne => absurd hp hne, fun hc => by rw [hnr] at hc; cases hc⟩,
        fun hc => by rw [hnr] at hc; cases hc⟩
    | trampolineReturn outcome h1 h2 =>
      rename_i m
      cases outcome
      · exact ⟨⟨fun _ => rfl, fun _ => by simp⟩, fun _ => ⟨rfl, rfl⟩⟩
      · exact ⟨⟨fun _ => rfl, fun _ => by simp⟩, fun _ => ⟨rfl, rfl⟩⟩

/-- Witness for C7: a fiber resumed once whose entry returned a resolved
outcome. -/
theorem fiber_result_terminates_iff_entry_returned_witness :
    (fiberW.result ≠ FutureStatus.pending ↔ fiberW.entryReturned = true) ∧
    (fiberW.entryReturned = true →
      fiberW.state = DexFiberState.exited ∧ fiberW.control = FiberControl.inScheduler) :=
  fiber_result_terminates_iff_entry_returned fiberW
    (FiberReachable.step
      (FiberReachable.step FiberReachable.start
        (FiberStep.resume dex_fiber_model_new rfl rfl))
      (FiberStep.trampolineReturn _ FiberOutcome.resolved rfl rfl))

/-- Claim C8, failing evaluation: on the 64-bit pointer 0x80000000 (bit
31 set, upper word zero) the dex_fiber_new split followed by the
dex_fiber_start_ reassembly yields 0xFFFFFFFF80000000, not the original
pointer: the lo half passes through a signed int and is sign-extended
into the high word by the widening before the bitwise or (the source
masks are also 0xFFFFFFFFF, 36 bits instead of 32). -/
theorem fiber_pointer_split_reassemble_bug :
    dex_fiber_start_reassemble (dex_fiber_new_split 2147483648).1
        (dex_fiber_new_split 2147483648).2 = 18446744071562067968 ∧
    dex_fiber_start_reassemble (dex_fiber_new_split 2147483648).1
        (dex_fiber_new_split 2147483648).2 ≠ 2147483648 := by
  constructor <;> decide

/-- Claim C9: dex_timeout_postpone_until re-arms the deadline of a
still-pending timeout and leaves an already completed (terminal)
timeout entirely unchanged. -/
theorem timeout_postpone_contract (t : DexTimeout) (h : TimeoutReachable t)
    (d : Int) :
    (t.status = FutureStatus.pending →
      dex_timeout_postpone_until t d = { t with source := some d }) ∧
    (t.status ≠ FutureStatus.pending → dex_timeout_postpone_until t d = t) := by
  have hiff := timeout_pending_iff_source t h
  constructor
  · intro hp
    have hs := hiff.1 hp
    rcases hsrc : t.source with _ | x
    · exact absurd hsrc hs
    · exact postpone_of_source_some t x hsrc d
  · intro hnp
    have hs : t.source = none := by
      rcases hsrc : t.source with _ | x
      · rfl
      · exact absurd (hiff.2 (by simp [hsrc])) hnp
    exact postpone_of_source_none t hs d

/-- Witness for C9 on a freshly created timeout. -/
theorem timeout_postpone_contract_witness :
    dex_timeout_postpone_until (dex_timeout_new_deadline 5) 9 =
      { dex_timeout_new_deadline 5 with source := some 9 } :=
  (timeout_postpone_contract (dex_timeout_new_deadline 5)
    (TimeoutReachable.new 5) 9).1 rfl

/-- Claim C10: dex_channel_new 0 installs the unbounded sentinel
G_MAXUINT as capacity, and on any channel with that capacity a send
with an empty sendq (and a queue length below the guint limit, as any
realizable queue is) takes the direct-enqueue path: capacity is
available, the send promise is returned and it is immediately resolved
with the post-push queue length. -/
theorem channel_new_zero_unbounded :
    (dex_channel_new 0).capacity = G_MAXUINT ∧
    ∀ (c : DexChannel) (f p : Nat),
      c.capacity = G_MAXUINT → c.canSend = true → c.canReceive = true →
      c.sendq = [] → c.queue.length < G_MAXUINT →
      has_capacity_locked c = true ∧
      (dex_channel_send c f p).2.1 = DexSendResult.promise p ∧
      (dex_channel_send c f p).2.2.take 1
        = [DexEffect.resolveUint p (c.queue.length + 1)] := by
  refine ⟨rfl, ?_⟩
  intro c f p hcap hcs hcr hsq hlt
  have hc : has_capacity_locked c = true :=
    (has_capacity_locked_iff c).2 ⟨hsq, by rw [hcap]; exact hlt⟩
  refine ⟨hc, ?_, ?_⟩
  · rw [send_direct c f p hcs hcr hc]
  · rw [send_direct c f p hcs hcr hc]
    simp

/-- Witness for C10 on the channel created with capacity 0. -/
theorem channel_new_zero_unbounded_witness :
    has_capacity_locked (dex_channel_new 0) = true ∧
    (dex_channel_send (dex_channel_new 0) 3 4).2.1 = DexSendResult.promise 4 ∧
    (dex_channel_send (dex_channel_new 0) 3 4).2.2.take 1
      = [DexEffect.resolveUint 4 1] :=
  channel_new_zero_unbounded.2 (dex_channel_new 0) 3 4 rfl rfl rfl rfl (by decide)

end Dex
